import Mathlib

/-!
A verification development for the `hui` rectangle renderer.

The Rust sources are embedded shallowly:
* `f32` values are modelled as exact rationals (`ℚ`); the arithmetic the
  claims depend on (halving, addition, matrix application) is exact.
* The GPU-facing byte staging buffer `instance_bytes : Vec<u8>` is modelled
  at record granularity as a `List Rectangle`: `bytemuck::bytes_of` is an
  injective map from a rectangle to its fixed `Rectangle::SIZE`-byte record,
  and every operation of the source appends, clears or slices the buffer at
  whole-record boundaries, so byte counts are `length * Rectangle.SIZE`.
* GPU resources (pipelines, textures, wgpu buffers) are opaque handles whose
  creation cannot fail in the model; the observable interactions with them
  (upload ranges, draw-call parameters, which passes run) are made explicit
  as returned values.
* `slotmap::SlotMap` (an external crate) is modelled from the spec's
  identifier scheme: an arena of slots, each carrying a generation counter
  (even when vacant, odd when occupied), a LIFO free list, and keys that are
  (slot index, generation) pairs whose generation must match on lookup.
-/

namespace Hui

/-- A 4-component vector over `ℚ`, modelling `glam`'s `Vec4` / a `[f32; 4]`. -/
structure Vec4 where
  x : ℚ
  y : ℚ
  z : ℚ
  w : ℚ
  deriving DecidableEq

/-- A 4x4 matrix given by its four columns, modelling `glam::Mat4`
(column-major, as `to_cols_array_2d` serializes it). -/
structure Mat4 where
  c0 : Vec4
  c1 : Vec4
  c2 : Vec4
  c3 : Vec4
  deriving DecidableEq

/-- Matrix–vector application (`glam`'s `Mat4 * Vec4`). -/
def Mat4.mulVec (m : Mat4) (v : Vec4) : Vec4 :=
  ⟨m.c0.x * v.x + m.c1.x * v.y + m.c2.x * v.z + m.c3.x * v.w,
   m.c0.y * v.x + m.c1.y * v.y + m.c2.y * v.z + m.c3.y * v.w,
   m.c0.z * v.x + m.c1.z * v.y + m.c2.z * v.z + m.c3.z * v.w,
   m.c0.w * v.x + m.c1.w * v.y + m.c2.w * v.z + m.c3.w * v.w⟩

/-- The identity matrix (`glam::Mat4::IDENTITY`). -/
def Mat4.identity : Mat4 :=
  ⟨⟨1, 0, 0, 0⟩, ⟨0, 1, 0, 0⟩, ⟨0, 0, 1, 0⟩, ⟨0, 0, 0, 1⟩⟩

/-- Matrix multiplication (`glam`'s `Mat4 * Mat4`): each column of the
product is the left matrix applied to the corresponding column of the
right matrix. -/
def Mat4.mul (a b : Mat4) : Mat4 :=
  ⟨a.mulVec b.c0, a.mulVec b.c1, a.mulVec b.c2, a.mulVec b.c3⟩

/-- `glam::Mat4::from_scale_rotation_translation` specialized to
`Quat::IDENTITY`, the only rotation `build_model` ever passes: the columns
are the scaled axes and the translation. -/
def Mat4.fromScaleIdentityRotTranslation
    (scale translation : ℚ × ℚ × ℚ) : Mat4 :=
  ⟨⟨scale.1, 0, 0, 0⟩,
   ⟨0, scale.2.1, 0, 0⟩,
   ⟨0, 0, scale.2.2, 0⟩,
   ⟨translation.1, translation.2.1, translation.2.2, 1⟩⟩

/-- The GPU-visible record for one rectangle (`Rectangle` in
`core/rectangle.rs`). The trailing `_padding: f32` field of the source only
pads the byte layout to the 16-byte alignment boundary and carries no data;
it is accounted for in `Rectangle.SIZE` and omitted here. -/
structure Rectangle where
  mvp : Mat4
  fill_color : Vec4
  border_color : Vec4
  corner_radii : Vec4
  shadow_color : Vec4
  half_size : ℚ × ℚ
  border_size : ℚ
  shadow_spread : ℚ
  shadow_offset : ℚ × ℚ
  shadow_blur : ℚ
  deriving DecidableEq

/-- `Rectangle::SIZE = size_of::<Rectangle>()`: 64 bytes of `mvp`, 4 × 16
bytes of color/radii vectors, 8 + 4 + 4 + 8 + 4 bytes of scalar fields and
4 bytes of padding, already a multiple of the 16-byte alignment. -/
def Rectangle.SIZE : Nat := 160

/-- `MAX_INSTANCE_COUNT`: the preallocated instance-buffer ceiling. -/
def MAX_INSTANCE_COUNT : Nat := 1024

/-- The byte size of the preallocated GPU instance buffer
(`MAX_INSTANCE_COUNT * Rectangle::SIZE as u64` in the `BufferDescriptor`). -/
def instanceBufferSize : Nat := MAX_INSTANCE_COUNT * Rectangle.SIZE

/-- `VERTICES`: the static local unit quad, symmetric about the origin. -/
def VERTICES : List (ℚ × ℚ × ℚ) :=
  [(-1, 1, 0), (-1, -1, 0), (1, 1, 0), (1, -1, 0)]

/-- `INDICES`: the fixed 6-index triangle list over the 4 quad corners. -/
def INDICES : List Nat := [1, 0, 2, 1, 3, 2]

/-- One arena slot of the keyed instance collection. The generation
`version` is even while the slot is vacant and odd while it is occupied;
it is bumped on every occupy and every vacate. -/
structure Slot where
  version : Nat
  value : Option Rectangle
  deriving DecidableEq

/-- A rectangle identifier (`RectangleId = slotmap::DefaultKey`): a slot
index paired with the generation at which the slot was occupied. -/
structure RectangleId where
  idx : Nat
  version : Nat
  deriving DecidableEq

/-- The keyed instance collection (`slotmap::SlotMap<RectangleId,
Rectangle>`): an arena of generation-tagged slots plus a LIFO free list of
vacant slot indices. -/
structure SlotMap where
  slots : List Slot
  free : List Nat
  deriving DecidableEq

/-- `SlotMap::new()`. -/
def SlotMap.empty : SlotMap := ⟨[], []⟩

/-- Lookup: the key is valid only when its generation matches the slot's
current generation; a vacant slot then yields `none` anyway. -/
def SlotMap.get (m : SlotMap) (k : RectangleId) : Option Rectangle :=
  match m.slots[k.idx]? with
  | some s => if s.version = k.version then s.value else none
  | none => none

/-- `contains_key`. -/
def SlotMap.containsKey (m : SlotMap) (k : RectangleId) : Bool :=
  (m.get k).isSome

/-- `SlotMap::insert`: reuse the head of the free list when there is one
(bumping the slot's generation to odd), otherwise append a fresh slot at
generation 1. The key returned carries the occupying generation. -/
def SlotMap.insert (m : SlotMap) (v : Rectangle) : RectangleId × SlotMap :=
  match m.free with
  | [] =>
      (⟨m.slots.length, 1⟩, ⟨m.slots ++ [⟨1, some v⟩], []⟩)
  | i :: rest =>
      match m.slots[i]? with
      | some s =>
          (⟨i, s.version + 1⟩,
           ⟨m.slots.set i ⟨s.version + 1, some v⟩, rest⟩)
      | none =>
          (⟨m.slots.length, 1⟩, ⟨m.slots ++ [⟨1, some v⟩], rest⟩)

/-- In-place update of the value a valid key refers to (the caller writing
through the `&mut Rectangle` that `get_mut` returned). A stale or
out-of-range key changes nothing. -/
def SlotMap.modify (m : SlotMap) (k : RectangleId)
    (f : Rectangle → Rectangle) : SlotMap :=
  match m.slots[k.idx]? with
  | some s =>
      if s.version = k.version then
        { m with slots := m.slots.set k.idx ⟨s.version, s.value.map f⟩ }
      else m
  | none => m

/-- `SlotMap::remove`: only a key whose generation matches an occupied slot
removes; the slot's generation is bumped (to even) and its index is pushed
onto the free list. -/
def SlotMap.remove (m : SlotMap) (k : RectangleId) :
    Option Rectangle × SlotMap :=
  match m.slots[k.idx]? with
  | some s =>
      match s.value with
      | some v =>
          if s.version = k.version then
            (some v,
             ⟨m.slots.set k.idx ⟨s.version + 1, none⟩, k.idx :: m.free⟩)
          else (none, m)
      | none => (none, m)
  | none => (none, m)

/-- `values()`: the live instances in slot-index order (the collection's
iteration order, independent of insertion order). -/
def SlotMap.values (m : SlotMap) : List Rectangle :=
  m.slots.filterMap Slot.value

/-- `len()`: the number of live instances. -/
def SlotMap.len (m : SlotMap) : Nat := m.values.length

/-- `is_empty()`. -/
def SlotMap.isEmpty (m : SlotMap) : Bool := m.len == 0

/-- The tri-state dirty flag of the instance store (`enum Dirtiness` in
`core/rectangle.rs`). -/
inductive Dirtiness where
  | Clean
  | RedrawRequired
  | RebuildAndRedrawRequired
  deriving DecidableEq

/-- How much pre-draw work a dirtiness state demands:
`Clean` < `RedrawRequired` < `RebuildAndRedrawRequired`. -/
def Dirtiness.rank : Dirtiness → Nat
  | Dirtiness.Clean => 0
  | Dirtiness.RedrawRequired => 1
  | Dirtiness.RebuildAndRedrawRequired => 2

/-- The instance store and rectangle pass (`RectangleRenderer` in
`core/rectangle.rs`). The GPU pipeline and the static vertex/index buffers
are opaque resources and carry no state the claims mention; the
preallocated instance buffer is represented by its fixed byte size
`instanceBufferSize`. -/
structure RectangleRenderer where
  instances : SlotMap
  instance_bytes : List Rectangle
  dirtiness : Dirtiness
  deriving DecidableEq

/-- `RectangleRenderer::new`: empty collection, empty staging buffer,
`Clean`. -/
def RectangleRenderer.init : RectangleRenderer :=
  ⟨SlotMap.empty, [], Dirtiness.Clean⟩

/-- `is_redraw_required`: true unless the store is `Clean`. -/
def RectangleRenderer.is_redraw_required (s : RectangleRenderer) : Bool :=
  decide (s.dirtiness ≠ Dirtiness.Clean)

/-- `get_mut`: unconditionally escalates to
`RebuildAndRedrawRequired`, then looks the identifier up. The returned
state is the store after the call and the returned option is what the
caller's `Option<&mut Rectangle>` refers to. -/
def RectangleRenderer.get_mut (s : RectangleRenderer) (id : RectangleId) :
    RectangleRenderer × Option Rectangle :=
  ({ s with dirtiness := Dirtiness.RebuildAndRedrawRequired },
   s.instances.get id)

/-- A caller calling `get_mut` and, when a reference comes back, writing
`f` of the old value through it (the only way the widget layer mutates an
instance). When `get_mut` returns `None`, nothing is written. -/
def RectangleRenderer.mutate (s : RectangleRenderer) (id : RectangleId)
    (f : Rectangle → Rectangle) : RectangleRenderer :=
  let s' := (s.get_mut id).1
  match (s.get_mut id).2 with
  | some _ => { s' with instances := s'.instances.modify id f }
  | none => s'

/-- `add`: escalate to `RedrawRequired` unless already
`RebuildAndRedrawRequired`, insert into the collection, and append the
serialized record to the staging buffer. -/
def RectangleRenderer.add (s : RectangleRenderer) (r : Rectangle) :
    RectangleRenderer × RectangleId :=
  let d := if s.dirtiness ≠ Dirtiness.RebuildAndRedrawRequired
    then Dirtiness.RedrawRequired else s.dirtiness
  let p := s.instances.insert r
  (⟨p.2, s.instance_bytes ++ [r], d⟩, p.1)

/-- `remove`: unconditionally escalates to `RebuildAndRedrawRequired`,
then removes from the collection. The staging buffer is not touched. -/
def RectangleRenderer.remove (s : RectangleRenderer) (id : RectangleId) :
    RectangleRenderer × Option Rectangle :=
  let p := s.instances.remove id
  (⟨p.2, s.instance_bytes, Dirtiness.RebuildAndRedrawRequired⟩, p.1)

/-- What one frame of `RectangleRenderer::render` hands to the GPU: the
record range written to the instance buffer at byte offset
`offset * Rectangle.SIZE = 0`, the single indexed, instanced draw call's
index and instance counts, and whether the staging buffer was cleared and
fully regenerated this frame. -/
structure UploadInfo where
  bytes : List Rectangle
  offset : Nat
  indexCount : Nat
  instanceCount : Nat
  didRebuild : Bool
  deriving DecidableEq

/-- `RectangleRenderer::render`: an empty collection returns before any
GPU work and changes nothing. Otherwise, on `RebuildAndRedrawRequired`
the staging buffer is cleared and regenerated from the live collection in
iteration order; the first `len * Rectangle.SIZE` staging bytes are
uploaded at offset 0; one indexed, instanced draw over `len` instances is
issued; dirtiness resets to `Clean`. -/
def RectangleRenderer.render (s : RectangleRenderer) :
    RectangleRenderer × Option UploadInfo :=
  if s.instances.isEmpty then (s, none)
  else
    let didRebuild : Bool :=
      decide (s.dirtiness = Dirtiness.RebuildAndRedrawRequired)
    let staging := if didRebuild then s.instances.values else s.instance_bytes
    let count := s.instances.len
    (⟨s.instances, staging, Dirtiness.Clean⟩,
     some ⟨staging.take count, 0, INDICES.length, count, didRebuild⟩)

/-- One store call a caller can make between frames, plus `render`. -/
inductive Op where
  | add (r : Rectangle)
  | getMut (id : RectangleId) (f : Rectangle → Rectangle)
  | remove (id : RectangleId)
  | render

/-- Whether the operation is a `render`. -/
def Op.isRender : Op → Bool
  | Op.render => true
  | _ => false

/-- The state part of executing one operation against the store. -/
def RectangleRenderer.step (s : RectangleRenderer) : Op → RectangleRenderer
  | Op.add r => (s.add r).1
  | Op.getMut id f => s.mutate id f
  | Op.remove id => (s.remove id).1
  | Op.render => s.render.1

/-- Executing a call sequence left to right. -/
def RectangleRenderer.run (s : RectangleRenderer) (ops : List Op) :
    RectangleRenderer :=
  ops.foldl RectangleRenderer.step s

/-- The store states reachable from a freshly constructed
`RectangleRenderer` by some call sequence. -/
def Reachable (s : RectangleRenderer) : Prop :=
  ∃ ops : List Op, RectangleRenderer.run RectangleRenderer.init ops = s

/-- The orchestrator (`Renderer` in `rendering/renderer.rs`). The
offscreen/depth textures, their views and the composite pass's bind group
are opaque GPU resources; the state the claims mention is the owned
instance store and the `is_redraw_required` flag. -/
structure Renderer where
  rectangle_renderer : RectangleRenderer
  is_redraw_required : Bool
  deriving DecidableEq

/-- `Renderer::new`: fresh store, and the flag starts set so the first
frame always renders the offscreen target. -/
def Renderer.init : Renderer := ⟨RectangleRenderer.init, true⟩

/-- `Renderer::resize`: recreates the offscreen and depth targets at the
new size and re-binds the composite pass (resource churn outside the
model), and forces a full redraw next frame. -/
def Renderer.resize (r : Renderer) : Renderer :=
  { r with is_redraw_required := true }

/-- What one call of `Renderer::render` did: the new state, whether the
offscreen rectangle pass was opened, the store's upload/draw (if the pass
ran and the store drew), and whether the composite pass onto the
presentation view ran. -/
structure FrameResult where
  renderer : Renderer
  offscreenPassRan : Bool
  upload : Option UploadInfo
  compositePassRan : Bool
  deriving DecidableEq

/-- `Renderer::render`: when the flag is set or the store reports redraw
required, open the offscreen pass, delegate to the store and clear the
flag; then unconditionally run the composite pass onto the presentation
view. -/
def Renderer.render (r : Renderer) : FrameResult :=
  if r.is_redraw_required || r.rectangle_renderer.is_redraw_required then
    let p := r.rectangle_renderer.render
    ⟨⟨p.1, false⟩, true, p.2, true⟩
  else
    ⟨r, false, none, true⟩

/-- `MouseButtonState` in `components/common/input_state.rs`. -/
inductive MouseButtonState where
  | Up
  | Down
  deriving DecidableEq

/-- `winit::event::ElementState`. -/
inductive ElementState where
  | Pressed
  | Released
  deriving DecidableEq

/-- `winit::event::MouseButton` (the variants beyond left/right are all
ignored by the tracker and collapsed accordingly). -/
inductive MouseButton where
  | Left
  | Right
  | Middle
  | Back
  | Forward
  | Other (code : Nat)
  deriving DecidableEq

/-- The raw window events relevant to the input tracker: a mouse button
press/release, a cursor movement carrying the new position, and the
catch-all for every other `winit::event::WindowEvent` variant. -/
inductive WindowEvent where
  | MouseInput (state : ElementState) (button : MouseButton)
  | CursorMoved (position : ℚ × ℚ)
  | OtherEvent
  deriving DecidableEq

/-- `InputState`: nullable pointer position and the two tracked button
states. -/
structure InputState where
  mouse_position : Option (ℚ × ℚ)
  left_mouse_button : MouseButtonState
  right_mouse_button : MouseButtonState
  deriving DecidableEq

/-- `InputState::on_mouse_input`: left/right map to the tracked state,
every other button returns early. -/
def InputState.on_mouse_input (st : InputState) (state : ElementState)
    (button : MouseButton) : InputState :=
  let next := match state with
    | ElementState.Pressed => MouseButtonState.Down
    | ElementState.Released => MouseButtonState.Up
  match button with
  | MouseButton.Left => { st with left_mouse_button := next }
  | MouseButton.Right => { st with right_mouse_button := next }
  | _ => st

/-- `InputState::sync`: only `MouseInput` events are matched; every other
event, `CursorMoved` included, falls into the wildcard arm and changes
nothing. -/
def InputState.sync (st : InputState) (event : WindowEvent) : InputState :=
  match event with
  | WindowEvent.MouseInput state button => st.on_mouse_input state button
  | _ => st

/-- `build_model` in `components/widgets/block.rs`: half extent is half
the size, the center places the unit quad's top-left corner at `position`,
and the model matrix scales by the half extent and translates to the
center with no rotation. -/
def build_model (size position : ℚ × ℚ) : Mat4 × (ℚ × ℚ) :=
  let half_size : ℚ × ℚ := (size.1 / 2, size.2 / 2)
  let center : ℚ × ℚ × ℚ :=
    (position.1 + half_size.1, position.2 + half_size.2, 0)
  let scale : ℚ × ℚ × ℚ := (half_size.1, half_size.2, 1)
  (Mat4.fromScaleIdentityRotTranslation scale center, half_size)

/-- Replacing the slot at a valid index changes the number of live values
by the difference of the two occupancy bits: a balanced counting identity
covering vacate, occupy and in-place update at once. -/
lemma length_filterMap_set (l : List Slot) (i : Nat) (s s' : Slot)
    (h : l[i]? = some s) :
    ((l.set i s').filterMap Slot.value).length
        + (if s.value.isSome then 1 else 0)
      = (l.filterMap Slot.value).length
        + (if s'.value.isSome then 1 else 0) := by
  induction l generalizing i with
  | nil => simp at h
  | cons a t ih =>
    cases i with
    | zero =>
      simp only [List.getElem?_cons_zero, Option.some.injEq] at h
      subst h
      cases hv : a.value <;> cases hv' : s'.value <;>
        simp [List.filterMap_cons, hv, hv']
    | succ n =>
      simp only [List.getElem?_cons_succ] at h
      have hrec := ih n h
      cases hv : a.value <;>
        simp only [List.set_cons_succ, List.filterMap_cons, hv,
          List.length_cons] <;> omega

/-- An index at which a lookup succeeds is in range. -/
lemma lt_of_getElem?_some {α : Type} {l : List α} {i : Nat} {x : α}
    (h : l[i]? = some x) : i < l.length := by
  rcases List.getElem?_eq_some.mp h with ⟨h1, _⟩
  exact h1

/-- Well-formedness of the keyed collection: the free list holds distinct,
in-range indices of vacant slots. -/
def SlotMap.WF (m : SlotMap) : Prop :=
  m.free.Nodup ∧
    ∀ i ∈ m.free, ∃ s : Slot, m.slots[i]? = some s ∧ s.value = none

lemma SlotMap.WF_empty : SlotMap.empty.WF := by
  constructor
  · simp [SlotMap.empty]
  · intro i hi
    simp [SlotMap.empty] at hi

/-- An insert preserves well-formedness and grows the live count by one. -/
lemma SlotMap.insert_spec (m : SlotMap) (v : Rectangle) (h : m.WF) :
    (m.insert v).2.WF ∧ (m.insert v).2.len = m.len + 1 := by
  obtain ⟨hnd, hfree⟩ := h
  unfold SlotMap.insert
  cases hf : m.free with
  | nil =>
    refine ⟨⟨by simp, by simp⟩, ?_⟩
    simp [SlotMap.len, SlotMap.values, List.filterMap_append]
  | cons i rest =>
    obtain ⟨s, hs, hsv⟩ := hfree i (hf ▸ List.mem_cons_self i rest)
    rw [hf] at hnd
    simp only [hs]
    have hlen := length_filterMap_set m.slots i s ⟨s.version + 1, some v⟩ hs
    refine ⟨⟨List.Nodup.of_cons hnd, ?_⟩, ?_⟩
    · intro j hj
      have hji : j ≠ i := by
        intro hji
        exact (List.nodup_cons.mp hnd).1 (hji ▸ hj)
      obtain ⟨s₂, hs₂, hs₂v⟩ := hfree j (hf ▸ List.mem_cons_of_mem i hj)
      refine ⟨s₂, ?_, hs₂v⟩
      rw [List.getElem?_set_ne (fun hij => hji hij.symm)]
      exact hs₂
    · simp only [SlotMap.len, SlotMap.values] at hlen ⊢
      simp [hsv] at hlen
      omega

/-- Inserting into a map with no free slot appends, and the new key looks
the inserted value straight back up. -/
lemma SlotMap.insert_free_nil (m : SlotMap) (v : Rectangle)
    (hf : m.free = []) :
    (m.insert v).2.slots = m.slots ++ [⟨1, some v⟩] ∧
    (m.insert v).2.free = [] ∧
    (m.insert v).2.values = m.values ++ [v] ∧
    (m.insert v).2.get (m.insert v).1 = some v := by
  unfold SlotMap.insert
  rw [hf]
  refine ⟨rfl, rfl, ?_, ?_⟩
  · simp [SlotMap.values, List.filterMap_append]
  · simp [SlotMap.get, List.getElem?_append_right]

/-- A removal preserves well-formedness and never grows the live count. -/
lemma SlotMap.remove_spec (m : SlotMap) (k : RectangleId) (h : m.WF) :
    (m.remove k).2.WF ∧ (m.remove k).2.len ≤ m.len := by
  obtain ⟨hnd, hfree⟩ := h
  cases hs : m.slots[k.idx]? with
  | none =>
    simp only [SlotMap.remove, hs]
    exact ⟨⟨hnd, hfree⟩, Nat.le_refl _⟩
  | some s =>
    cases hv : s.value with
    | none =>
      simp only [SlotMap.remove, hs, hv]
      exact ⟨⟨hnd, hfree⟩, Nat.le_refl _⟩
    | some v =>
      by_cases hver : s.version = k.version
      · simp only [SlotMap.remove, hs, hv, if_pos hver]
        have hkidx : k.idx ∉ m.free := by
          intro hmem
          obtain ⟨s₂, hs₂, hs₂v⟩ := hfree k.idx hmem
          rw [hs] at hs₂
          cases hs₂
          rw [hv] at hs₂v
          cases hs₂v
        have hlen := length_filterMap_set m.slots k.idx s
          ⟨s.version + 1, none⟩ hs
        refine ⟨⟨List.nodup_cons.mpr ⟨hkidx, hnd⟩, ?_⟩, ?_⟩
        · intro j hj
          rcases List.mem_cons.mp hj with hj | hj
          · subst hj
            refine ⟨⟨s.version + 1, none⟩, ?_, rfl⟩
            have hlt : k.idx < m.slots.length := lt_of_getElem?_some hs
            rw [List.getElem?_set_self]
            simp [hlt]
          · have hji : j ≠ k.idx := fun hji => hkidx (hji ▸ hj)
            obtain ⟨s₂, hs₂, hs₂v⟩ := hfree j hj
            refine ⟨s₂, ?_, hs₂v⟩
            rw [List.getElem?_set_ne (fun hij => hji hij.symm)]
            exact hs₂
        · simp only [SlotMap.len, SlotMap.values] at hlen ⊢
          simp [hv] at hlen
          omega
      · simp only [SlotMap.remove, hs, hv, if_neg hver]
        exact ⟨⟨hnd, hfree⟩, Nat.le_refl _⟩

/-- A write-through update preserves well-formedness and the live count. -/
lemma SlotMap.modify_spec (m : SlotMap) (k : RectangleId)
    (f : Rectangle → Rectangle) (h : m.WF) :
    (m.modify k f).WF ∧ (m.modify k f).len = m.len := by
  obtain ⟨hnd, hfree⟩ := h
  cases hs : m.slots[k.idx]? with
  | none =>
    simp only [SlotMap.modify, hs]
    exact ⟨⟨hnd, hfree⟩, trivial⟩
  | some s =>
    by_cases hver : s.version = k.version
    · simp only [SlotMap.modify, hs, if_pos hver]
      have hlen := length_filterMap_set m.slots k.idx s
        ⟨s.version, s.value.map f⟩ hs
      refine ⟨⟨hnd, ?_⟩, ?_⟩
      · intro j hj
        obtain ⟨s₂, hs₂, hs₂v⟩ := hfree j hj
        by_cases hji : j = k.idx
        · subst hji
          rw [hs] at hs₂
          injection hs₂ with hss
          subst hss
          refine ⟨⟨s.version, s.value.map f⟩, ?_, by simp [hs₂v]⟩
          have hlt : k.idx < m.slots.length := lt_of_getElem?_some hs
          rw [List.getElem?_set_self]
          simp [hlt]
        · refine ⟨s₂, ?_, hs₂v⟩
          rw [List.getElem?_set_ne (fun hij => hji hij.symm)]
          exact hs₂
      · simp only [SlotMap.len, SlotMap.values] at hlen ⊢
        cases hv : s.value <;> simp [hv] at hlen ⊢ <;> omega
    · simp only [SlotMap.modify, hs, if_neg hver]
      exact ⟨⟨hnd, hfree⟩, trivial⟩

/-- The store invariant maintained across every operation: the collection
is well-formed, the staging buffer covers at least `len` records, and
outside the `RebuildAndRedrawRequired` state it covers exactly `len`
records (the appended bytes are trusted verbatim on the redraw path). -/
def StoreInv (s : RectangleRenderer) : Prop :=
  s.instances.WF ∧
  s.instances.len ≤ s.instance_bytes.length ∧
  (s.dirtiness ≠ Dirtiness.RebuildAndRedrawRequired →
    s.instance_bytes.length = s.instances.len)

lemma storeInv_init : StoreInv RectangleRenderer.init := by
  refine ⟨SlotMap.WF_empty, ?_, ?_⟩ <;>
    simp [RectangleRenderer.init, SlotMap.len, SlotMap.values, SlotMap.empty]

/-- The state part of `mutate` only escalates dirtiness and (possibly)
updates one live value in place. -/
lemma mutate_parts (s : RectangleRenderer) (id : RectangleId)
    (f : Rectangle → Rectangle) :
    (s.mutate id f).dirtiness = Dirtiness.RebuildAndRedrawRequired ∧
    (s.mutate id f).instance_bytes = s.instance_bytes ∧
    ((s.mutate id f).instances = s.instances.modify id f ∨
      (s.mutate id f).instances = s.instances) := by
  unfold RectangleRenderer.mutate RectangleRenderer.get_mut
  cases s.instances.get id <;> simp

/-- The three components of `add`, stated over an opaque store. -/
lemma add_parts (s : RectangleRenderer) (r : Rectangle) :
    (s.add r).1.instances = (s.instances.insert r).2 ∧
    (s.add r).2 = (s.instances.insert r).1 ∧
    (s.add r).1.instance_bytes = s.instance_bytes ++ [r] :=
  ⟨rfl, rfl, rfl⟩

lemma storeInv_step (s : RectangleRenderer) (op : Op) (h : StoreInv s) :
    StoreInv (s.step op) := by
  obtain ⟨hwf, hle, heq⟩ := h
  cases op with
  | add r =>
    obtain ⟨hwf', hlen'⟩ := SlotMap.insert_spec s.instances r hwf
    simp only [RectangleRenderer.step, RectangleRenderer.add]
    refine ⟨hwf', ?_, ?_⟩
    · simpa [hlen'] using hle
    · intro hd
      by_cases hcur : s.dirtiness = Dirtiness.RebuildAndRedrawRequired
      · simp only [hcur] at hd
        simp at hd
      · have hb := heq hcur
        simp [hlen', hb]
  | getMut id f =>
    obtain ⟨hd, hb, hi⟩ := mutate_parts s id f
    simp only [RectangleRenderer.step]
    refine ⟨?_, ?_, ?_⟩
    · rcases hi with hi | hi <;> rw [hi]
      · exact (SlotMap.modify_spec s.instances id f hwf).1
      · exact hwf
    · rw [hb]
      rcases hi with hi | hi <;> rw [hi]
      · rw [(SlotMap.modify_spec s.instances id f hwf).2]
        exact hle
      · exact hle
    · intro hcontra
      exact absurd hd hcontra
  | remove id =>
    obtain ⟨hwf', hlen'⟩ := SlotMap.remove_spec s.instances id hwf
    simp only [RectangleRenderer.step, RectangleRenderer.remove]
    exact ⟨hwf', Nat.le_trans hlen' hle, fun hcontra => absurd rfl hcontra⟩
  | render =>
    simp only [RectangleRenderer.step, RectangleRenderer.render]
    by_cases hE : s.instances.isEmpty
    · simp only [hE, if_pos]
      exact ⟨hwf, hle, heq⟩
    · by_cases hd : s.dirtiness = Dirtiness.RebuildAndRedrawRequired
      · simp only [hE, Bool.false_eq_true, if_false, hd]
        simp only [decide_eq_true_eq]
        rw [if_pos trivial]
        exact ⟨hwf, Nat.le_refl _, fun _ => rfl⟩
      · have hb := heq hd
        simp only [hE, Bool.false_eq_true, if_false]
        rw [if_neg (by simpa using hd)]
        exact ⟨hwf, hb ▸ Nat.le_refl _, fun _ => hb⟩

lemma storeInv_run (s : RectangleRenderer) (ops : List Op)
    (h : StoreInv s) : StoreInv (s.run ops) := by
  induction ops generalizing s with
  | nil => exact h
  | cons op rest ih => exact ih (s.step op) (storeInv_step s op h)

lemma reachable_storeInv (s : RectangleRenderer) (h : Reachable s) :
    StoreInv s := by
  obtain ⟨ops, hops⟩ := h
  exact hops ▸ storeInv_run RectangleRenderer.init ops storeInv_init

/-- Folding a list of inserts over the store (`add` called once per
element, results discarded). -/
def addList (s : RectangleRenderer) (rs : List Rectangle) :
    RectangleRenderer :=
  rs.foldl (fun t r => (t.add r).1) s

/-- While the free list is empty every insert appends: after a pure
run of `add`s the collection's iteration order, the staging buffer and the
insertion order all agree, and dirtiness has escalated to (at least)
`RedrawRequired`. -/
lemma addList_spec (rs : List Rectangle) (s : RectangleRenderer)
    (hf : s.instances.free = []) :
    (addList s rs).instances.free = [] ∧
    (addList s rs).instances.values = s.instances.values ++ rs ∧
    (addList s rs).instance_bytes = s.instance_bytes ++ rs ∧
    (addList s rs).dirtiness =
      (if rs = [] then s.dirtiness
       else if s.dirtiness = Dirtiness.RebuildAndRedrawRequired then
         Dirtiness.RebuildAndRedrawRequired
       else Dirtiness.RedrawRequired) := by
  induction rs generalizing s with
  | nil => simp [addList, hf]
  | cons r rest ih =>
    obtain ⟨h1, h2, h3, h4⟩ := SlotMap.insert_free_nil s.instances r hf
    have hfree' : (s.add r).1.instances.free = [] := h2
    obtain ⟨g1, g2, g3, g4⟩ := ih ((s.add r).1) hfree'
    have hstep : addList s (r :: rest) = addList ((s.add r).1) rest := rfl
    have hvals : (s.add r).1.instances.values = s.instances.values ++ [r] := h3
    have hbytes : (s.add r).1.instance_bytes = s.instance_bytes ++ [r] := rfl
    have hdirt : (s.add r).1.dirtiness =
        (if s.dirtiness = Dirtiness.RebuildAndRedrawRequired then
          Dirtiness.RebuildAndRedrawRequired else Dirtiness.RedrawRequired) := by
      simp only [RectangleRenderer.add]
      by_cases hd : s.dirtiness = Dirtiness.RebuildAndRedrawRequired <;>
        simp [hd]
    rw [hstep]
    refine ⟨g1, ?_, ?_, ?_⟩
    · rw [g2, hvals, List.append_assoc]
      simp
    · rw [g3, hbytes, List.append_assoc]
      simp
    · rw [g4, hdirt]
      by_cases hd : s.dirtiness = Dirtiness.RebuildAndRedrawRequired <;>
        by_cases hrest : rest = [] <;>
        simp [hd, hrest]

/-- Dirtiness ranks are at most 2. -/
lemma Dirtiness.rank_le_two (d : Dirtiness) : d.rank ≤ 2 := by
  cases d <;> simp [Dirtiness.rank]

/-- A single non-render store call never lowers the dirtiness rank. -/
lemma step_rank_mono (s : RectangleRenderer) (op : Op)
    (h : op.isRender = false) :
    s.dirtiness.rank ≤ (s.step op).dirtiness.rank := by
  cases op with
  | add r =>
    simp only [RectangleRenderer.step, RectangleRenderer.add]
    by_cases hd : s.dirtiness = Dirtiness.RebuildAndRedrawRequired
    · simp [hd]
    · cases hcur : s.dirtiness <;> simp [hcur, Dirtiness.rank] at hd ⊢
  | getMut id f =>
    simp only [RectangleRenderer.step]
    rw [(mutate_parts s id f).1]
    exact Dirtiness.rank_le_two _
  | remove id =>
    simp only [RectangleRenderer.step, RectangleRenderer.remove]
    exact Dirtiness.rank_le_two _
  | render => simp [Op.isRender] at h

/-- A render-free call sequence never lowers the dirtiness rank. -/
lemma run_rank_mono (s : RectangleRenderer) (ops : List Op)
    (h : ops.all (fun o => !o.isRender) = true) :
    s.dirtiness.rank ≤ (s.run ops).dirtiness.rank := by
  induction ops generalizing s with
  | nil => exact Nat.le_refl _
  | cons op rest ih =>
    rw [List.all_cons, Bool.and_eq_true] at h
    have h1 : op.isRender = false := by
      cases hr : op.isRender
      · rfl
      · rw [hr] at h
        simp at h
    exact Nat.le_trans (step_rank_mono s op h1) (ih ((s.step op)) h.2)

/-- A concrete rectangle record distinguished by the parameter `q`. -/
def sampleRect (q : ℚ) : Rectangle :=
  ⟨Mat4.identity, ⟨q, 0, 0, 1⟩, ⟨0, 0, 0, 0⟩, ⟨0, 0, 0, 0⟩, ⟨0, 0, 0, 0⟩,
   (q, q), 0, 0, (0, 0), 0⟩

/-- The rectangle called A in the spec's scenarios. -/
def rectA : Rectangle := sampleRect 1

/-- The rectangle called B in the spec's scenarios. -/
def rectB : Rectangle := sampleRect 2

/-- The rectangle called C in the spec's scenarios. -/
def rectC : Rectangle := sampleRect 3

/-- A key the collection does not contain removes nothing and changes
nothing. -/
lemma SlotMap.remove_not_contains (m : SlotMap) (k : RectangleId)
    (h : m.containsKey k = false) : m.remove k = (none, m) := by
  have hg : m.get k = none := by
    cases hg : m.get k with
    | none => rfl
    | some v =>
      rw [SlotMap.containsKey, hg] at h
      simp at h
  cases hs : m.slots[k.idx]? with
  | none => simp [SlotMap.remove, hs]
  | some s =>
    cases hv : s.value with
    | none => simp [SlotMap.remove, hs, hv]
    | some v =>
      by_cases hver : s.version = k.version
      · rw [SlotMap.get, hs] at hg
        simp [hver, hv] at hg
      · simp [SlotMap.remove, hs, hv, hver]

/-- Rendering after a pure run of inserts into the fresh store: no
rebuild, the upload is the insertion sequence itself, one draw over
`rs.length` instances, and the staging buffer is left as it was. -/
lemma addList_init_render (rs : List Rectangle) (h : rs ≠ []) :
    (addList RectangleRenderer.init rs).instances.values = rs ∧
    (addList RectangleRenderer.init rs).instance_bytes = rs ∧
    (addList RectangleRenderer.init rs).instances.len = rs.length ∧
    (addList RectangleRenderer.init rs).render.2 =
      some ⟨rs, 0, INDICES.length, rs.length, false⟩ ∧
    (addList RectangleRenderer.init rs).render.1.instance_bytes =
      (addList RectangleRenderer.init rs).instance_bytes := by
  obtain ⟨h1, h2, h3, h4⟩ := addList_spec rs RectangleRenderer.init rfl
  have hvals : (addList RectangleRenderer.init rs).instances.values = rs := by
    rw [h2]
    rfl
  have hbytes : (addList RectangleRenderer.init rs).instance_bytes = rs := by
    rw [h3]
    rfl
  have hlen : (addList RectangleRenderer.init rs).instances.len
      = rs.length := by
    rw [SlotMap.len, hvals]
  have hdirt : (addList RectangleRenderer.init rs).dirtiness
      = Dirtiness.RedrawRequired := by
    rw [h4]
    simp [h, RectangleRenderer.init]
  have hE : (addList RectangleRenderer.init rs).instances.isEmpty
      = false := by
    rw [SlotMap.isEmpty, hlen]
    have hpos : 0 < rs.length := List.length_pos.mpr h
    simp only [beq_eq_false_iff_ne, ne_eq]
    omega
  refine ⟨hvals, hbytes, hlen, ?_, ?_⟩ <;>
    rw [RectangleRenderer.render, hE] <;>
    simp only [Bool.false_eq_true, if_false, hdirt] <;>
    simp only [decide_eq_true_eq, reduceCtorEq, if_false, hbytes, hlen] <;>
    simp [List.take_length]

/-- C1: Dirtiness only escalates until a render completes — `add` raises
the state to at least `RedrawRequired` and never downgrades
`RebuildAndRedrawRequired`; `get_mut` (with or without a write through the
returned reference, and on stale identifiers too) and `remove`
unconditionally escalate to `RebuildAndRedrawRequired`; and across any
render-free call sequence the dirtiness rank never decreases, so no
operation but `render` moves the state toward `Clean`. -/
theorem c1_dirty_state_monotonicity
    (s : RectangleRenderer) (r : Rectangle) (id : RectangleId)
    (f : Rectangle → Rectangle) (ops : List Op)
    (h : ops.all (fun o => !o.isRender) = true) :
    s.dirtiness.rank ≤ (s.add r).1.dirtiness.rank ∧
    Dirtiness.RedrawRequired.rank ≤ (s.add r).1.dirtiness.rank ∧
    (s.dirtiness = Dirtiness.RebuildAndRedrawRequired →
      (s.add r).1.dirtiness = Dirtiness.RebuildAndRedrawRequired) ∧
    (s.get_mut id).1.dirtiness = Dirtiness.RebuildAndRedrawRequired ∧
    (s.mutate id f).dirtiness = Dirtiness.RebuildAndRedrawRequired ∧
    (s.remove id).1.dirtiness = Dirtiness.RebuildAndRedrawRequired ∧
    s.dirtiness.rank ≤ (s.run ops).dirtiness.rank := by
  refine ⟨step_rank_mono s (Op.add r) rfl, ?_, ?_, rfl,
    (mutate_parts s id f).1, rfl, run_rank_mono s ops h⟩
  · simp only [RectangleRenderer.add]
    by_cases hd : s.dirtiness = Dirtiness.RebuildAndRedrawRequired <;>
      simp [hd, Dirtiness.rank]
  · intro hd
    simp [RectangleRenderer.add, hd]

theorem c1_dirty_state_monotonicity_witness :
    (([Op.add rectA, Op.remove ⟨0, 1⟩] : List Op).all
      (fun o => !o.isRender)) = true ∧
    RectangleRenderer.init.dirtiness.rank ≤
      (RectangleRenderer.init.run [Op.add rectA, Op.remove ⟨0, 1⟩]).dirtiness.rank :=
  ⟨by decide,
   (c1_dirty_state_monotonicity RectangleRenderer.init rectA ⟨0, 1⟩
      (fun x => x) [Op.add rectA, Op.remove ⟨0, 1⟩] (by decide)).2.2.2.2.2.2⟩

/-- C2: a render in the `RebuildAndRedrawRequired` state with a non-empty
live set clears and regenerates the staging buffer from the live
collection in its iteration order, uploads exactly `live_count ×
Rectangle.SIZE` bytes at offset 0, and issues one indexed, instanced draw
over `live_count` instances; in particular after inserting A, B, C and
removing B (whose identifier is slot 1, generation 1), the uploaded range
is exactly the records of A and C in live-set order, with no bytes of
B. -/
theorem c2_rebuild_correctness
    (s : RectangleRenderer)
    (h1 : s.dirtiness = Dirtiness.RebuildAndRedrawRequired)
    (h2 : 0 < s.instances.len) :
    (s.render.1.instance_bytes = s.instances.values ∧
     s.render.2 = some ⟨s.instances.values, 0, INDICES.length,
       s.instances.len, true⟩ ∧
     s.instances.values.length * Rectangle.SIZE
       = s.instances.len * Rectangle.SIZE) ∧
    (((RectangleRenderer.init.add rectA).1.add rectB).2 = ⟨1, 1⟩ ∧
     ((((RectangleRenderer.init.add rectA).1.add rectB).1.add rectC).1.remove
        ⟨1, 1⟩).1.render.2 = some ⟨[rectA, rectC], 0, 6, 2, true⟩) := by
  have hE : s.instances.isEmpty = false := by
    rw [SlotMap.isEmpty]
    simp only [beq_eq_false_iff_ne, ne_eq]
    omega
  have hrender1 : s.render.1.instance_bytes = s.instances.values := by
    rw [RectangleRenderer.render, hE]
    simp [h1]
  have hrender2 : s.render.2 = some ⟨s.instances.values, 0, INDICES.length,
      s.instances.len, true⟩ := by
    rw [RectangleRenderer.render, hE]
    simp [h1, SlotMap.len, List.take_length]
  exact ⟨⟨hrender1, hrender2, rfl⟩, by decide, by decide⟩

theorem c2_rebuild_correctness_witness :
    ((((RectangleRenderer.init.add rectA).1.add rectB).1.add rectC).1.remove
      ⟨1, 1⟩).1.dirtiness = Dirtiness.RebuildAndRedrawRequired ∧
    0 < ((((RectangleRenderer.init.add rectA).1.add rectB).1.add
      rectC).1.remove ⟨1, 1⟩).1.instances.len ∧
    ((((RectangleRenderer.init.add rectA).1.add rectB).1.add rectC).1.remove
      ⟨1, 1⟩).1.render.1.instance_bytes =
    ((((RectangleRenderer.init.add rectA).1.add rectB).1.add rectC).1.remove
      ⟨1, 1⟩).1.instances.values :=
  ⟨by decide, by decide,
   ((c2_rebuild_correctness _ (by decide) (by decide)).1).1⟩

/-- C5: a stale identifier (one the collection no longer contains) is
rejected as a no-op on the live set: `get_mut` returns `None` and leaves
the collection untouched (so no write can occur through the reference),
`remove` returns `None` and leaves the collection untouched; and
concretely, after add A at key (0,1), remove it, and add B (which reuses
slot 0 at generation 3), the generation check still rejects the old key
instead of aliasing B. -/
theorem c5_stale_identifier_rejected
    (s : RectangleRenderer) (k : RectangleId) (f : Rectangle → Rectangle)
    (h : s.instances.containsKey k = false) :
    ((s.get_mut k).2 = none ∧
     (s.get_mut k).1.instances = s.instances ∧
     (s.mutate k f).instances = s.instances ∧
     (s.remove k).2 = none ∧
     (s.remove k).1.instances = s.instances) ∧
    ((RectangleRenderer.init.add rectA).2 = ⟨0, 1⟩ ∧
     (((RectangleRenderer.init.add rectA).1.remove ⟨0, 1⟩).1.add rectB).2
       = ⟨0, 3⟩ ∧
     (((RectangleRenderer.init.add rectA).1.remove
        ⟨0, 1⟩).1.add rectB).1.instances.containsKey ⟨0, 1⟩ = false ∧
     ((((RectangleRenderer.init.add rectA).1.remove
        ⟨0, 1⟩).1.add rectB).1.get_mut ⟨0, 1⟩).2 = none ∧
     ((((RectangleRenderer.init.add rectA).1.remove
        ⟨0, 1⟩).1.add rectB).1.remove ⟨0, 1⟩).2 = none ∧
     ((((RectangleRenderer.init.add rectA).1.remove
        ⟨0, 1⟩).1.add rectB).1.remove ⟨0, 1⟩).1.instances.values
       = [rectB]) := by
  have hg : s.instances.get k = none := by
    cases hgg : s.instances.get k with
    | none => rfl
    | some v =>
      rw [SlotMap.containsKey, hgg] at h
      simp at h
  have hrm := SlotMap.remove_not_contains s.instances k h
  refine ⟨⟨hg, rfl, ?_, ?_, ?_⟩, by decide, by decide, by decide, by decide,
    by decide, by decide⟩
  · simp [RectangleRenderer.mutate, RectangleRenderer.get_mut, hg]
  · simp [RectangleRenderer.remove, hrm]
  · simp [RectangleRenderer.remove, hrm]

theorem c5_stale_identifier_rejected_witness :
    (((RectangleRenderer.init.add rectA).1.remove
        ⟨0, 1⟩).1.add rectB).1.instances.containsKey ⟨0, 1⟩ = false ∧
    ((((RectangleRenderer.init.add rectA).1.remove
        ⟨0, 1⟩).1.add rectB).1.get_mut ⟨0, 1⟩).2 = none :=
  ⟨by decide,
   ((c5_stale_identifier_rejected
      (((RectangleRenderer.init.add rectA).1.remove ⟨0, 1⟩).1.add rectB).1
      ⟨0, 1⟩ (fun x => x) (by decide)).1).1⟩

/-- C6: with zero live instances the store's render returns before any
upload or draw and leaves the whole store state (staging bytes and
dirtiness included) unchanged; a render that issues no draw never resets
dirtiness (it changes nothing at all); and `Renderer::render` runs the
composite pass onto the presentation view unconditionally, every
frame. -/
theorem c6_zero_instance_frame
    (s : RectangleRenderer) (h : s.instances.len = 0) :
    s.render = (s, none) ∧
    (∀ t : RectangleRenderer, t.render.2 = none → t.render.1 = t) ∧
    (∀ r : Renderer, r.render.compositePassRan = true) := by
  refine ⟨?_, ?_, ?_⟩
  · have hE : s.instances.isEmpty = true := by
      rw [SlotMap.isEmpty, h]
      rfl
    rw [RectangleRenderer.render, hE]
    rfl
  · intro t ht
    by_cases hE : t.instances.isEmpty
    · rw [RectangleRenderer.render, hE]
      rfl
    · rw [RectangleRenderer.render] at ht
      simp [hE] at ht
  · intro r
    rw [Renderer.render]
    by_cases hb : (r.is_redraw_required
        || r.rectangle_renderer.is_redraw_required) = true <;>
      simp [hb]

theorem c6_zero_instance_frame_witness :
    (((RectangleRenderer.init.add rectA).1.remove ⟨0, 1⟩).1.instances.len
      = 0) ∧
    ((RectangleRenderer.init.add rectA).1.remove ⟨0, 1⟩).1.render
      = (((RectangleRenderer.init.add rectA).1.remove ⟨0, 1⟩).1, none) :=
  ⟨by decide,
   (c6_zero_instance_frame
      ((RectangleRenderer.init.add rectA).1.remove ⟨0, 1⟩).1 (by decide)).1⟩

/-- C7: `Renderer::new` starts with the redraw flag set; every `resize`
sets it; the render that follows a resize runs the offscreen rectangle
pass even when the store is untouched; the offscreen pass runs exactly
when the flag or the store's dirtiness demands it; and render clears the
flag only after running that pass (when the pass does not run, the state
is returned unchanged). -/
theorem c7_resize_invalidation (r : Renderer) :
    Renderer.init.is_redraw_required = true ∧
    r.resize.is_redraw_required = true ∧
    r.resize.render.offscreenPassRan = true ∧
    r.render.offscreenPassRan =
      (r.is_redraw_required || r.rectangle_renderer.is_redraw_required) ∧
    (r.render.offscreenPassRan = false → r.render.renderer = r) ∧
    (r.render.offscreenPassRan = true →
      r.render.renderer.is_redraw_required = false) := by
  refine ⟨rfl, rfl, ?_, ?_, ?_, ?_⟩
  · rw [Renderer.resize, Renderer.render]
    simp
  · rw [Renderer.render]
    by_cases hb : (r.is_redraw_required
        || r.rectangle_renderer.is_redraw_required) = true <;>
      simp [hb]
  · intro h0
    rw [Renderer.render] at h0 ⊢
    by_cases hb : (r.is_redraw_required
        || r.rectangle_renderer.is_redraw_required) = true <;>
      simp [hb] at h0 ⊢
  · intro h1
    rw [Renderer.render] at h1 ⊢
    by_cases hb : (r.is_redraw_required
        || r.rectangle_renderer.is_redraw_required) = true <;>
      simp [hb] at h1 ⊢

theorem c7_resize_invalidation_witness :
    (⟨RectangleRenderer.init, false⟩ : Renderer).render.renderer
      = (⟨RectangleRenderer.init, false⟩ : Renderer) ∧
    Renderer.init.resize.render.offscreenPassRan = true :=
  ⟨(c7_resize_invalidation ⟨RectangleRenderer.init, false⟩).2.2.2.2.1
     (by decide),
   (c7_resize_invalidation Renderer.init).2.2.1⟩

/-- C3 as stated is false: it quantifies over every `Clean` store, but a
reachable `Clean` store may already hold live instances, and then a render
after N fresh inserts uploads `(live + N) × Rectangle.SIZE` bytes and
draws `live + N` instances, not `N`. Concretely: add A, render (the store
is now `Clean` with one live instance), add B (one insert, N = 1): the
next render uploads 2 records and draws 2 instances, not 1. -/
theorem c3_append_fast_path_counterexample :
    ((RectangleRenderer.init.add rectA).1.render.1).dirtiness
      = Dirtiness.Clean ∧
    (((RectangleRenderer.init.add rectA).1.render.1.add rectB).1).render.2
      = some ⟨[rectA, rectB], 0, 6, 2, false⟩ ∧
    ¬ ((((RectangleRenderer.init.add rectA).1.render.1.add
        rectB).1).render.2 = some ⟨[rectB], 0, 6, 1, false⟩) := by
  refine ⟨by decide, by decide, by decide⟩

/-- C3 amended: for every nonempty sequence of inserts into the initial
(empty, `Clean`) store with no intervening `get_mut` or `remove`, the
subsequent render performs no full re-serialize (`didRebuild = false` and
the staging buffer is left exactly as it was), uploads exactly
`N × Rectangle.SIZE` bytes that coincide with the live collection's
iteration order — the bytes a full rebuild would produce — and issues one
indexed draw with instance count N. -/
theorem c3_append_fast_path (rs : List Rectangle) (h : rs ≠ []) :
    (addList RectangleRenderer.init rs).render.2 =
      some ⟨rs, 0, INDICES.length, rs.length, false⟩ ∧
    (addList RectangleRenderer.init rs).render.1.instance_bytes =
      (addList RectangleRenderer.init rs).instance_bytes ∧
    (addList RectangleRenderer.init rs).instances.values = rs := by
  obtain ⟨h1, h2, _, h4, h5⟩ := addList_init_render rs h
  exact ⟨h4, h5, h1⟩

theorem c3_append_fast_path_witness :
    ([rectA, rectB] : List Rectangle) ≠ [] ∧
    (addList RectangleRenderer.init [rectA, rectB]).render.2 =
      some ⟨[rectA, rectB], 0, INDICES.length, 2, false⟩ :=
  ⟨by decide, (c3_append_fast_path [rectA, rectB] (by decide)).1⟩

/-- C4 as stated is false: `add` performs no capacity check at all, so an
insert into a store already holding `MAX_INSTANCE_COUNT = 1024` live
instances silently succeeds — it returns a valid identifier under which
the new instance is retrievable and raises the live count to 1025. -/
theorem c4_capacity_counterexample :
    (addList RectangleRenderer.init
       (List.replicate MAX_INSTANCE_COUNT rectA)).instances.len
      = MAX_INSTANCE_COUNT ∧
    ((addList RectangleRenderer.init
        (List.replicate MAX_INSTANCE_COUNT rectA)).add
      rectA).1.instances.len = MAX_INSTANCE_COUNT + 1 ∧
    ((addList RectangleRenderer.init
        (List.replicate MAX_INSTANCE_COUNT rectA)).add
      rectA).1.instances.get
        ((addList RectangleRenderer.init
           (List.replicate MAX_INSTANCE_COUNT rectA)).add rectA).2
      = some rectA := by
  obtain ⟨hfree, hvals, _, _⟩ := addList_spec
    (List.replicate MAX_INSTANCE_COUNT rectA) RectangleRenderer.init rfl
  set s₀ : RectangleRenderer := addList RectangleRenderer.init
    (List.replicate MAX_INSTANCE_COUNT rectA) with hs₀
  have hlen : s₀.instances.len = MAX_INSTANCE_COUNT := by
    rw [SlotMap.len, hvals]
    rw [show RectangleRenderer.init.instances.values
      = ([] : List Rectangle) from rfl]
    rw [List.nil_append, List.length_replicate]
  obtain ⟨_, _, hins, hget⟩ :=
    SlotMap.insert_free_nil s₀.instances rectA hfree
  have hai : (s₀.add rectA).1.instances
      = (s₀.instances.insert rectA).2 := (add_parts s₀ rectA).1
  have hak : (s₀.add rectA).2
      = (s₀.instances.insert rectA).1 := (add_parts s₀ rectA).2.1
  refine ⟨hlen, ?_, ?_⟩
  · rw [hai, SlotMap.len, hins, List.length_append, ← SlotMap.len, hlen]
    rfl
  · rw [hai, hak]
    exact hget

/-- C4 amended: the store itself never rejects an insert — every insert
beyond the ceiling succeeds and the live count tracks the insertion count
— but nothing is silently truncated either: the next render derives both
the upload size and the draw's instance count from the full live count, so
past the ceiling it requests an upload of `live_count × Rectangle.SIZE >
instanceBufferSize` bytes into the preallocated instance buffer, which the
external graphics queue rejects as a fatal out-of-bounds write rather
than drawing a truncated set. -/
theorem c4_capacity_exceeded
    (rs : List Rectangle) (h : MAX_INSTANCE_COUNT < rs.length) :
    (addList RectangleRenderer.init rs).instances.len = rs.length ∧
    (addList RectangleRenderer.init rs).render.2 =
      some ⟨rs, 0, INDICES.length, rs.length, false⟩ ∧
    instanceBufferSize < rs.length * Rectangle.SIZE := by
  have hne : rs ≠ [] := by
    intro hnil
    rw [hnil] at h
    simp [MAX_INSTANCE_COUNT] at h
  obtain ⟨_, _, h3, h4, _⟩ := addList_init_render rs hne
  refine ⟨h3, h4, ?_⟩
  have hpos : 0 < Rectangle.SIZE := by
    rw [Rectangle.SIZE]
    omega
  rw [instanceBufferSize]
  exact mul_lt_mul_of_pos_right h hpos

theorem c4_capacity_exceeded_witness :
    MAX_INSTANCE_COUNT < (List.replicate 1025 rectA).length ∧
    instanceBufferSize < (List.replicate 1025 rectA).length
      * Rectangle.SIZE :=
  ⟨by rw [List.length_replicate]; decide,
   (c4_capacity_exceeded (List.replicate 1025 rectA)
      (by rw [List.length_replicate]; decide)).2.2⟩

/-- C8: for every position and size, `build_model` returns
`half_extent = size / 2` and a model matrix equal to scale by the half
extent then translate to `position + half_extent` with no rotation;
multiplying by an identity view-projection changes nothing, and the four
corners (±1, ±1) of the local unit quad (the entries of `VERTICES`) map
exactly onto the axis-aligned bounds `[position, position + size]`. -/
theorem c8_transform_round_trip (px py sx sy : ℚ) :
    (build_model (sx, sy) (px, py)).2 = (sx / 2, sy / 2) ∧
    Mat4.mul Mat4.identity (build_model (sx, sy) (px, py)).1 =
      (build_model (sx, sy) (px, py)).1 ∧
    VERTICES = [(-1, 1, 0), (-1, -1, 0), (1, 1, 0), (1, -1, 0)] ∧
    (build_model (sx, sy) (px, py)).1.mulVec ⟨-1, -1, 0, 1⟩
      = ⟨px, py, 0, 1⟩ ∧
    (build_model (sx, sy) (px, py)).1.mulVec ⟨-1, 1, 0, 1⟩
      = ⟨px, py + sy, 0, 1⟩ ∧
    (build_model (sx, sy) (px, py)).1.mulVec ⟨1, -1, 0, 1⟩
      = ⟨px + sx, py, 0, 1⟩ ∧
    (build_model (sx, sy) (px, py)).1.mulVec ⟨1, 1, 0, 1⟩
      = ⟨px + sx, py + sy, 0, 1⟩ := by
  refine ⟨rfl, ?_, rfl, ?_, ?_, ?_, ?_⟩ <;>
    simp only [build_model, Mat4.fromScaleIdentityRotTranslation,
      Mat4.mul, Mat4.mulVec, Mat4.identity, Mat4.mk.injEq,
      Vec4.mk.injEq] <;>
    norm_num
  all_goals try constructor
  all_goals ring

/-- C9 names intended behavior the code does not implement: the
`mouse_position` field exists with a public getter and the spec says it
tracks cursor movement, but `sync` matches only `MouseInput` events, so a
`CursorMoved` event falls into the wildcard arm and leaves the whole
state — the position in particular — unchanged; starting from the
absent-position state, processing a movement to (10, 20) still yields no
position. Button events indeed leave the position unchanged. -/
theorem c9_cursor_moved_ignored (st : InputState) (p : ℚ × ℚ)
    (state : ElementState) (button : MouseButton) :
    (st.sync (WindowEvent.CursorMoved p)) = st ∧
    (st.sync (WindowEvent.CursorMoved p)).mouse_position
      = st.mouse_position ∧
    (st.sync (WindowEvent.MouseInput state button)).mouse_position
      = st.mouse_position ∧
    ((⟨none, MouseButtonState.Up, MouseButtonState.Up⟩ : InputState).sync
        (WindowEvent.CursorMoved (10, 20))).mouse_position = none := by
  refine ⟨rfl, rfl, ?_, rfl⟩
  cases button <;> cases state <;> rfl

/-- C10: every store state reachable from a fresh `RectangleRenderer` by
`add`/`get_mut`/`remove`/`render` calls keeps the staging buffer at least
`live_count × Rectangle.SIZE` bytes long, and at render time the slice of
the first `live_count × Rectangle.SIZE` staging bytes is fully in bounds
(the upload holds exactly `live_count` records), so the slice expression
cannot panic. -/
theorem c10_staging_capacity (s : RectangleRenderer) (h : Reachable s) :
    s.instances.len * Rectangle.SIZE
      ≤ s.instance_bytes.length * Rectangle.SIZE ∧
    (∀ u : UploadInfo, s.render.2 = some u →
      u.bytes.length = s.instances.len) := by
  obtain ⟨hwf, hle, heq⟩ := reachable_storeInv s h
  refine ⟨Nat.mul_le_mul_right _ hle, ?_⟩
  intro u hu
  by_cases hE : s.instances.isEmpty
  · rw [RectangleRenderer.render, hE] at hu
    simp at hu
  · rw [RectangleRenderer.render] at hu
    simp only [hE, Bool.false_eq_true, if_false] at hu
    by_cases hd : s.dirtiness = Dirtiness.RebuildAndRedrawRequired
    · simp only [hd, decide_eq_true_eq, if_pos trivial,
        Option.some.injEq] at hu
      rw [← hu]
      simp [SlotMap.len, List.length_take]
    · rw [if_neg (by simpa using hd)] at hu
      simp only [Option.some.injEq] at hu
      rw [← hu]
      simp only [List.length_take]
      rw [heq hd]
      simp [Nat.min_def]

theorem c10_staging_capacity_witness :
    ((RectangleRenderer.init.add rectA).1).instances.len * Rectangle.SIZE
      ≤ ((RectangleRenderer.init.add rectA).1).instance_bytes.length
        * Rectangle.SIZE :=
  (c10_staging_capacity ((RectangleRenderer.init.add rectA).1)
    ⟨[Op.add rectA], rfl⟩).1

end Hui
